import Mathlib

/-!
Verification of the type-hierarchy session subsystem
(`src/vs/workbench/contrib/typeHierarchy/common/typeHierarchy.ts`).

The embedding is shallow: the model class, the command façade and the session
registry become Lean functions over explicit state. The global `_models` map and
the set of all `RefCountedDisposable` handles become a `SystemState`; a model
holds an index into the handle store (the source's `acquire` returns the same
handle object, so a fork shares the index with its origin). Provider calls are
given by their response behavior: they may throw (the error id is recorded when
it is reported to the unexpected-error sink) or resolve to a value.
-/

set_option autoImplicit false

namespace TypeHierarchy

/-- A source range, mirroring `IRange` (four numeric fields). -/
structure IRange where
  startLineNumber : Int
  startColumn : Int
  endLineNumber : Int
  endColumn : Int
deriving DecidableEq, Repr

/-- Mirrors `TypeHierarchyItem` (typeHierarchy.ts:23-33). -/
structure TypeHierarchyItem where
  sessionId : String
  itemId : String
  name : String
  kind : Int
  detail : Option String
  uri : String
  range : IRange
  selectionRange : IRange
  tags : List Int
deriving DecidableEq, Repr

/-- Mirrors `TypeHierarchySession` (typeHierarchy.ts:35-38): the roots the provider
returned. Its `dispose()` capability is observed through the dispose counter of the
ref-counted handle that wraps the session. -/
structure TypeHierarchySession where
  roots : List TypeHierarchyItem
deriving DecidableEq, Repr

/-- A cancellation token: `true` means the signal fired before the provider responded. -/
abbrev CancellationToken := Bool

/-- Outcome of one provider call: the provider may throw or reject (`threw`, carrying
an error id) or resolve to a value. -/
inductive ProviderResult (α : Type) where
  | threw (e : Nat)
  | value (v : α)
deriving DecidableEq, Repr

/-- A JavaScript value in array position, as an expansion call may resolve it:
`undefined` or `null`, a non-array value, or an array. -/
inductive JsArrayResult (α : Type) where
  | undef
  | nonArray
  | arr (l : List α)
deriving DecidableEq, Repr

/-- Modelled from the spec: `isNonEmptyArray` (vs/base/common/arrays, outside src/) is
true exactly for an array value with at least one element. -/
def isNonEmptyArray {α : Type} : JsArrayResult α → Bool
  | .arr (_ :: _) => true
  | _ => false

/-- The list behind an array value, `[]` for non-arrays (only read behind a positive
`isNonEmptyArray` test). -/
def JsArrayResult.asList {α : Type} : JsArrayResult α → List α
  | .arr l => l
  | _ => []

/-- Mirrors `TypeHierarchyProvider` (typeHierarchy.ts:40-44), each capability given by
its response behavior for the inputs of one call. -/
structure TypeHierarchyProvider where
  prepareTypeHierarchy : CancellationToken → ProviderResult (Option TypeHierarchySession)
  provideSupertypes : TypeHierarchyItem → CancellationToken → ProviderResult (JsArrayResult TypeHierarchyItem)
  provideSubtypes : TypeHierarchyItem → CancellationToken → ProviderResult (JsArrayResult TypeHierarchyItem)

/-- Modelled from the spec: the Ref-Counted Session Handle (`RefCountedDisposable`,
vs/base/common/lifecycle, outside src/). The counter starts at 1; `acquire` increments
it; `release` decrements it and, when it reaches zero, invokes the wrapped session's
`dispose()` once — `disposeCalls` counts those invocations. A double release is not
guarded (spec §9), so the counter is an integer. -/
structure RefCountedDisposable where
  counter : Int
  disposeCalls : Nat
deriving DecidableEq, Repr

def RefCountedDisposable.acquire (rc : RefCountedDisposable) : RefCountedDisposable :=
  { rc with counter := rc.counter + 1 }

def RefCountedDisposable.release (rc : RefCountedDisposable) : RefCountedDisposable :=
  { counter := rc.counter - 1
  , disposeCalls := if rc.counter - 1 = 0 then rc.disposeCalls + 1 else rc.disposeCalls }

/-- The store of every handle created so far; models hold indices into it. -/
abbrev HandleStore := List RefCountedDisposable

/-- The handle at index `i`, when the index is valid. -/
def rcAt : Nat → HandleStore → Option RefCountedDisposable
  | _, [] => none
  | 0, rc :: _ => some rc
  | n + 1, _ :: t => rcAt n t

/-- Apply an operation to the handle at index `i` (identity on an invalid index):
a mutation of one handle object, all other handles untouched. -/
def applyH (f : RefCountedDisposable → RefCountedDisposable) :
    Nat → HandleStore → HandleStore
  | _, [] => []
  | 0, rc :: t => f rc :: t
  | n + 1, rc :: t => rc :: applyH f n t

def acquireH : Nat → HandleStore → HandleStore :=
  applyH RefCountedDisposable.acquire

def releaseH : Nat → HandleStore → HandleStore :=
  applyH RefCountedDisposable.release

/-- Mirrors `TypeHierarchyModel` (typeHierarchy.ts:50-111); `handle` is the index of
the model's `ref` in the handle store. -/
structure TypeHierarchyModel where
  id : String
  provider : TypeHierarchyProvider
  roots : List TypeHierarchyItem
  handle : Nat

/-- `readonly root` (typeHierarchy.ts:64,72): `roots[0]`, absent when `roots` is empty
(JavaScript `undefined`). -/
def TypeHierarchyModel.root (m : TypeHierarchyModel) : Option TypeHierarchyItem :=
  m.roots.head?

/-- Mirrors `TypeHierarchyModel.create` (typeHierarchy.ts:52-62): take the first ordered
provider (none ⇒ absent); call `prepareTypeHierarchy` (a throw propagates; no session ⇒
absent); otherwise build the model with
`id = session.roots.reduce((p, c) => p + c._sessionId, '')`, all returned roots, and the
session wrapped in a fresh `RefCountedDisposable` (counter 1) appended to the store. -/
def TypeHierarchyModel.create (providers : List TypeHierarchyProvider)
    (token : CancellationToken) (hs : HandleStore) :
    Except Nat (Option TypeHierarchyModel) × HandleStore :=
  match providers.head? with
  | none => (.ok none, hs)
  | some provider =>
    match provider.prepareTypeHierarchy token with
    | .threw e => (.error e, hs)
    | .value none => (.ok none, hs)
    | .value (some session) =>
      (.ok (some
        { id := session.roots.foldl (fun p c => p ++ c.sessionId) ""
        , provider := provider
        , roots := session.roots
        , handle := hs.length }),
       hs ++ [{ counter := 1, disposeCalls := 0 }])

/-- Mirrors `dispose` (typeHierarchy.ts:75-77): `this.ref.release()`. -/
def TypeHierarchyModel.dispose (m : TypeHierarchyModel) (hs : HandleStore) : HandleStore :=
  releaseH m.handle hs

/-- Mirrors `fork` (typeHierarchy.ts:79-86): same `id` and `provider`, `[item]` as the
roots, and `that.ref.acquire()` — the same handle index with its counter incremented. -/
def TypeHierarchyModel.fork (m : TypeHierarchyModel) (item : TypeHierarchyItem)
    (hs : HandleStore) : TypeHierarchyModel × HandleStore :=
  ({ id := m.id, provider := m.provider, roots := [item], handle := m.handle },
   acquireH m.handle hs)

/-- Mirrors `provideSupertypes` (typeHierarchy.ts:88-98): call the provider inside
try/catch; a throw is reported to `onUnexpectedExternalError` (the second component
lists the reported error ids) and swallowed; a non-empty array is returned as is;
everything else becomes `[]`. -/
def TypeHierarchyModel.provideSupertypes (m : TypeHierarchyModel)
    (item : TypeHierarchyItem) (token : CancellationToken) :
    List TypeHierarchyItem × List Nat :=
  match m.provider.provideSupertypes item token with
  | .threw e => ([], [e])
  | .value result => (if isNonEmptyArray result then result.asList else [], [])

/-- Mirrors `provideSubtypes` (typeHierarchy.ts:100-110), same shape as
`provideSupertypes`. -/
def TypeHierarchyModel.provideSubtypes (m : TypeHierarchyModel)
    (item : TypeHierarchyItem) (token : CancellationToken) :
    List TypeHierarchyItem × List Nat :=
  match m.provider.provideSubtypes item token with
  | .threw e => ([], [e])
  | .value result => (if isNonEmptyArray result then result.asList else [], [])

/-- The `_models` map (typeHierarchy.ts:115): insertion-ordered entries. -/
abbrev Registry := List (String × TypeHierarchyModel)

/-- JavaScript `Map.get`. -/
def mapGet (k : String) : Registry → Option TypeHierarchyModel
  | [] => none
  | e :: rest => if e.1 = k then some e.2 else mapGet k rest

/-- JavaScript `Map.set`: an existing key keeps its insertion position and receives the
new value; a fresh key is appended. -/
def mapSet (k : String) (v : TypeHierarchyModel) : Registry → Registry
  | [] => [(k, v)]
  | e :: rest => if e.1 = k then (k, v) :: rest else e :: mapSet k v rest

/-- Mirrors the eviction scan of `_executePrepareTypeHierarchy` (typeHierarchy.ts:139-144):
`_models.forEach` visits entries in insertion order while `n` tracks the live `map.size`;
an entry visited while the size exceeds 10 is disposed (`value.dispose()`) and deleted,
which lowers the size by one. Returns the surviving entries and the disposed models in
dispose order. -/
def evictScan : Registry → Nat → Registry × List TypeHierarchyModel
  | [], _ => ([], [])
  | e :: rest, n =>
    if 10 < n then
      let r := evictScan rest (n - 1)
      (r.1, e.2 :: r.2)
    else
      let r := evictScan rest n
      (e :: r.1, r.2)

/-- `_models.set(model.id, model)` followed by the eviction scan
(typeHierarchy.ts:138-144); each disposed model's `dispose()` releases one reference on
its handle. Returns the new registry, the updated handle store and the disposed models. -/
def registryPut (m : TypeHierarchyModel) (reg : Registry) (hs : HandleStore) :
    Registry × HandleStore × List TypeHierarchyModel :=
  let r := evictScan (mapSet m.id m reg) (mapSet m.id m reg).length
  (r.1, r.2.foldl (fun s f => f.dispose s) hs, r.2)

/-- The process-wide state behind the command façade: the handle store plus the
`_models` registry. -/
structure SystemState where
  handles : HandleStore
  models : Registry

/-- Mirrors `_executePrepareTypeHierarchy` (typeHierarchy.ts:117-150): create a model
(the source passes `CancellationToken.None`; the token is a parameter here), return `[]`
when absent, otherwise register the model, run the eviction scan and return
`[model.root]` — a singleton, whose element is `undefined` when the session had no
roots. A throw from `create` propagates. Resolving the document and releasing the text
model reference are external collaborators and are not modelled. -/
def executePrepareTypeHierarchy (providers : List TypeHierarchyProvider)
    (token : CancellationToken) (st : SystemState) :
    Except Nat (List (Option TypeHierarchyItem)) × SystemState :=
  match TypeHierarchyModel.create providers token st.handles with
  | (.error e, hs) => (.error e, { st with handles := hs })
  | (.ok none, hs) => (.ok [], { st with handles := hs })
  | (.ok (some m), hs) =>
    let r := registryPut m st.models hs
    (.ok [m.root], { handles := r.2.1, models := r.1 })

/-- An untrusted JavaScript value in one field of an incoming node object. `uriVal`
stands for a value accepted by `URI.isUri` and `rangeVal` for one accepted by
`Range.isIRange` (both outside src/, modelled from the spec). -/
inductive JsAny where
  | undef
  | str (s : String)
  | num (n : Int)
  | uriVal (u : String)
  | rangeVal (startLineNumber startColumn endLineNumber endColumn : Int)
  | other
deriving DecidableEq, Repr

def isStringVal : JsAny → Bool
  | .str _ => true
  | _ => false

def isNumberVal : JsAny → Bool
  | .num _ => true
  | _ => false

/-- Modelled from the spec: `URI.isUri` (vs/base/common/uri, outside src/). -/
def isUriVal : JsAny → Bool
  | .uriVal _ => true
  | _ => false

/-- Modelled from the spec: `Range.isIRange` (vs/editor/common/core/range, outside
src/). -/
def isIRangeVal : JsAny → Bool
  | .rangeVal _ _ _ _ => true
  | _ => false

/-- An untrusted node object as the expand commands receive it: identity fields may be
absent (`none` = JavaScript `undefined`); shape fields hold arbitrary values. -/
structure TypeHierarchyItemDto where
  sessionId : Option String
  itemId : Option String
  name : JsAny
  kind : JsAny
  uri : JsAny
  range : JsAny
  selectionRange : JsAny
deriving DecidableEq, Repr

/-- Mirrors `isTypeHierarchyItemDto` (typeHierarchy.ts:152-160): checks `name`, `kind`,
`uri`, `range` and `selectionRange` only (the `typeof obj === 'object'` test always
holds for a node object); `_sessionId` and `_itemId` are not inspected. -/
def isTypeHierarchyItemDto (obj : TypeHierarchyItemDto) : Bool :=
  isStringVal obj.name && isNumberVal obj.kind && isUriVal obj.uri
    && isIRangeVal obj.range && isIRangeVal obj.selectionRange

/-- The typed view of a dto handed on to the provider (the source passes the object
through untyped; the conversion only matters once a model was found, and provider
behavior is quantified over). -/
def dtoAsItem (d : TypeHierarchyItemDto) : TypeHierarchyItem :=
  { sessionId := d.sessionId.getD ""
  , itemId := d.itemId.getD ""
  , name := match d.name with | .str s => s | _ => ""
  , kind := match d.kind with | .num n => n | _ => 0
  , detail := none
  , uri := match d.uri with | .uriVal u => u | _ => ""
  , range := match d.range with | .rangeVal a b c dd => ⟨a, b, c, dd⟩ | _ => ⟨0, 0, 0, 0⟩
  , selectionRange :=
      match d.selectionRange with | .rangeVal a b c dd => ⟨a, b, c, dd⟩ | _ => ⟨0, 0, 0, 0⟩
  , tags := [] }

/-- `_models.get(item._sessionId)` where the key may be absent: a string-keyed map never
matches an absent key. -/
def lookupDto (k : Option String) (reg : Registry) : Option TypeHierarchyModel :=
  match k with
  | none => none
  | some s => mapGet s reg

/-- Outcome of an expand command: an `assertType` failure on a malformed shape, or a
result where `none` is JavaScript `undefined` (session not found). -/
inductive CommandOutcome (α : Type) where
  | validationError
  | result (v : Option α)

/-- Mirrors `_executeProvideSupertypes` (typeHierarchy.ts:162-173): assert the dto
shape, look the model up by `_sessionId` (absent ⇒ `undefined`), else delegate to the
model. The second component counts provider expansion invocations. -/
def executeProvideSupertypes (reg : Registry) (d : TypeHierarchyItemDto)
    (token : CancellationToken) :
    CommandOutcome (List TypeHierarchyItem × List Nat) × Nat :=
  if isTypeHierarchyItemDto d then
    match lookupDto d.sessionId reg with
    | none => (.result none, 0)
    | some m => (.result (some (m.provideSupertypes (dtoAsItem d) token)), 1)
  else (.validationError, 0)

/-- Mirrors `_executeProvideSubtypes` (typeHierarchy.ts:175-186). -/
def executeProvideSubtypes (reg : Registry) (d : TypeHierarchyItemDto)
    (token : CancellationToken) :
    CommandOutcome (List TypeHierarchyItem × List Nat) × Nat :=
  if isTypeHierarchyItemDto d then
    match lookupDto d.sessionId reg with
    | none => (.result none, 0)
    | some m => (.result (some (m.provideSubtypes (dtoAsItem d) token)), 1)
  else (.validationError, 0)

/-- Fork `m` once per item, in order; returns the forks and the final handle store. -/
def forkMany (m : TypeHierarchyModel) (items : List TypeHierarchyItem)
    (hs : HandleStore) : List TypeHierarchyModel × HandleStore :=
  match items with
  | [] => ([], hs)
  | it :: rest =>
    let f := m.fork it hs
    let r := forkMany m rest f.2
    (f.1 :: r.1, r.2)

/-- Dispose every model in the list, in order. -/
def disposeMany (ms : List TypeHierarchyModel) (hs : HandleStore) : HandleStore :=
  match ms with
  | [] => hs
  | f :: rest => disposeMany rest (f.dispose hs)

/-- Modelled from the spec: the model id as spec §3 words it — the concatenation, in
root order, of every root node's `itemId` field (to be compared with the id the source
derives). -/
def specRootsItemIdConcat (roots : List TypeHierarchyItem) : String :=
  roots.foldl (fun p c => p ++ c.itemId) ""

/-! Concrete sample data used to evaluate the embedding on closed inputs. -/

def sampleRange : IRange := ⟨1, 1, 2, 1⟩

def itemA : TypeHierarchyItem :=
  { sessionId := "s", itemId := "a", name := "A", kind := 4, detail := none
  , uri := "u", range := sampleRange, selectionRange := sampleRange, tags := [] }

def itemB : TypeHierarchyItem :=
  { itemA with itemId := "b", name := "B" }

def sessionA : TypeHierarchySession := { roots := [itemA] }

def sessionAB : TypeHierarchySession := { roots := [itemA, itemB] }

/-- A provider that prepares a one-root session and resolves expansions to
`undefined`. -/
def providerA : TypeHierarchyProvider :=
  { prepareTypeHierarchy := fun _ => .value (some sessionA)
  , provideSupertypes := fun _ _ => .value .undef
  , provideSubtypes := fun _ _ => .value .undef }

/-- A provider whose session has two roots. -/
def providerAB : TypeHierarchyProvider :=
  { providerA with prepareTypeHierarchy := fun _ => .value (some sessionAB) }

/-- A provider that honors cancellation: once the signal fired it resolves without a
session. -/
def providerHonoring : TypeHierarchyProvider :=
  { providerA with prepareTypeHierarchy := fun token =>
      if token then .value none else .value (some sessionA) }

/-- A provider whose expansion calls throw. -/
def providerThrowing : TypeHierarchyProvider :=
  { providerA with
    provideSupertypes := fun _ _ => .threw 7
  , provideSubtypes := fun _ _ => .threw 7 }

/-- The model `TypeHierarchyModel.create [providerA]` builds over an empty handle
store. -/
def modelCreatedA : TypeHierarchyModel :=
  { id := "s", provider := providerA, roots := [itemA], handle := 0 }

/-- A second model with the same id but a different handle. -/
def modelB : TypeHierarchyModel :=
  { id := "s", provider := providerA, roots := [itemB], handle := 1 }

/-- The model built by `provideSupertypes`-throwing provider. -/
def modelThrowing : TypeHierarchyModel :=
  { id := "s", provider := providerThrowing, roots := [itemA], handle := 0 }

def st0 : SystemState := { handles := [], models := [] }

/-- A well-shaped dto with both identity fields absent. -/
def dtoNoSession : TypeHierarchyItemDto :=
  { sessionId := none, itemId := none, name := .str "A", kind := .num 4
  , uri := .uriVal "u", range := .rangeVal 1 1 2 1, selectionRange := .rangeVal 1 1 2 1 }

/-- A well-shaped dto carrying a session id no registry entry uses. -/
def dtoUnknown : TypeHierarchyItemDto :=
  { dtoNoSession with sessionId := some "zz" }

/-! ### Handle-store lemmas -/

theorem rcAt_applyH_self (f : RefCountedDisposable → RefCountedDisposable)
    (i : Nat) (hs : HandleStore) : rcAt i (applyH f i hs) = (rcAt i hs).map f := by
  induction hs generalizing i with
  | nil => cases i <;> rfl
  | cons rc t ih =>
    cases i with
    | zero => rfl
    | succ n => exact ih n

theorem rcAt_applyH_ne (f : RefCountedDisposable → RefCountedDisposable)
    (i j : Nat) (hs : HandleStore) (hij : j ≠ i) :
    rcAt j (applyH f i hs) = rcAt j hs := by
  induction hs generalizing i j with
  | nil => cases i <;> rfl
  | cons rc t ih =>
    cases i with
    | zero =>
      cases j with
      | zero => exact absurd rfl hij
      | succ n => rfl
    | succ n =>
      cases j with
      | zero => rfl
      | succ k => exact ih n k (fun h => hij (by rw [h]))

theorem rcAt_append_own_length (hs : HandleStore) (rc : RefCountedDisposable) :
    rcAt hs.length (hs ++ [rc]) = some rc := by
  induction hs with
  | nil => rfl
  | cons x t ih => exact ih

/-- Disposing a batch of models none of which holds handle `i` leaves the handle at
`i` untouched. -/
theorem rcAt_foldl_dispose_ne (ms : List TypeHierarchyModel) (i : Nat)
    (hs : HandleStore) (h : ∀ f ∈ ms, f.handle ≠ i) :
    rcAt i (ms.foldl (fun s f => f.dispose s) hs) = rcAt i hs := by
  induction ms generalizing hs with
  | nil => rfl
  | cons f rest ih =>
    rw [List.foldl_cons, ih (f.dispose hs) (fun g hg => h g (List.mem_cons_of_mem f hg))]
    show rcAt i (applyH RefCountedDisposable.release f.handle hs) = _
    exact rcAt_applyH_ne RefCountedDisposable.release f.handle i hs
      (fun hh => h f (List.mem_cons_self f rest) hh.symm)

/-- Successful `create` places a counter-1 handle at the end of the store and hands the
model that index. -/
theorem create_some_eq (providers : List TypeHierarchyProvider)
    (token : CancellationToken) (hs : HandleStore) (m : TypeHierarchyModel)
    (hsOut : HandleStore)
    (h : TypeHierarchyModel.create providers token hs = (.ok (some m), hsOut)) :
    m.handle = hs.length ∧ hsOut = hs ++ [{ counter := 1, disposeCalls := 0 }] := by
  cases providers with
  | nil => simp [TypeHierarchyModel.create] at h
  | cons p rest =>
    cases hp : p.prepareTypeHierarchy token with
    | threw e => simp [TypeHierarchyModel.create, hp] at h
    | value v =>
      cases v with
      | none => simp [TypeHierarchyModel.create, hp] at h
      | some s =>
        simp [TypeHierarchyModel.create, hp] at h
        obtain ⟨h1, h2⟩ := h
        constructor
        · rw [← h1]
        · rw [← h2]

theorem forkMany_handle (m : TypeHierarchyModel) (items : List TypeHierarchyItem)
    (hs : HandleStore) : ∀ f ∈ (forkMany m items hs).1, f.handle = m.handle := by
  induction items generalizing hs with
  | nil => intro f hf; simp [forkMany] at hf
  | cons it rest ih =>
    intro f hf
    simp only [forkMany, List.mem_cons] at hf
    rcases hf with h | h
    · rw [h]; rfl
    · exact ih _ f h

theorem forkMany_length (m : TypeHierarchyModel) (items : List TypeHierarchyItem)
    (hs : HandleStore) : (forkMany m items hs).1.length = items.length := by
  induction items generalizing hs with
  | nil => rfl
  | cons it rest ih => simp [forkMany, ih]

/-- Each fork acquires once: after `k` forks the shared counter went up by `k` and no
dispose happened. -/
theorem rcAt_forkMany (m : TypeHierarchyModel) (items : List TypeHierarchyItem)
    (hs : HandleStore) (rc : RefCountedDisposable) (h : rcAt m.handle hs = some rc) :
    rcAt m.handle (forkMany m items hs).2
      = some { counter := rc.counter + items.length
             , disposeCalls := rc.disposeCalls } := by
  induction items generalizing hs rc with
  | nil => simp [forkMany, h]
  | cons it rest ih =>
    have h2 : rcAt m.handle (m.fork it hs).2 = some rc.acquire := by
      show rcAt m.handle (applyH RefCountedDisposable.acquire m.handle hs) = _
      rw [rcAt_applyH_self, h]; rfl
    have h3 := ih (m.fork it hs).2 rc.acquire h2
    show rcAt m.handle (forkMany m rest (m.fork it hs).2).2 = _
    rw [h3]
    simp [RefCountedDisposable.acquire]
    ring

/-- Disposing models that all share handle `i`, while more references remain than
models disposed, decrements the counter once per dispose and never frees. -/
theorem rcAt_disposeMany (ms : List TypeHierarchyModel) (i : Nat) (hs : HandleStore)
    (rc : RefCountedDisposable) (hms : ∀ f ∈ ms, f.handle = i)
    (h : rcAt i hs = some rc) (hc : (ms.length : Int) < rc.counter) :
    rcAt i (disposeMany ms hs)
      = some { counter := rc.counter - ms.length
             , disposeCalls := rc.disposeCalls } := by
  induction ms generalizing hs rc with
  | nil => simpa using h
  | cons f rest ih =>
    have hf : f.handle = i := hms f (by simp)
    have hcc : (rest.length : Int) + 1 < rc.counter := by
      simp only [List.length_cons] at hc
      push_cast at hc
      omega
    have h2 : rcAt i (f.dispose hs)
        = some { counter := rc.counter - 1, disposeCalls := rc.disposeCalls } := by
      show rcAt i (applyH RefCountedDisposable.release f.handle hs) = _
      rw [hf, rcAt_applyH_self, h]
      have hne : rc.counter - 1 ≠ 0 := by omega
      simp [RefCountedDisposable.release, hne]
    have h3 := ih (f.dispose hs)
      { counter := rc.counter - 1, disposeCalls := rc.disposeCalls }
      (fun g hg => hms g (List.mem_cons_of_mem f hg)) h2
      (by show (rest.length : Int) < rc.counter - 1; omega)
    show rcAt i (disposeMany rest (f.dispose hs)) = _
    rw [h3]
    simp
    ring

/-! ### Registry lemmas -/

/-- The eviction scan, run with `n` = the live size, drops exactly the entries beyond
the capacity from the front (the oldest insertions) and disposes them in order. -/
theorem evictScan_eq (l : Registry) (n : Nat) :
    evictScan l n = (l.drop (n - 10), (l.take (n - 10)).map Prod.snd) := by
  induction l generalizing n with
  | nil => simp [evictScan]
  | cons e rest ih =>
    by_cases hn : 10 < n
    · have h1 : n - 10 = (n - 11) + 1 := by omega
      have h2 : n - 1 - 10 = n - 11 := by omega
      simp [evictScan, hn, ih (n - 1), h1, h2]
    · have h1 : n - 10 = 0 := by omega
      simp [evictScan, hn, ih n, h1]

theorem registryPut_length_le (m : TypeHierarchyModel) (reg : Registry)
    (hs : HandleStore) : (registryPut m reg hs).1.length ≤ 10 := by
  show (evictScan (mapSet m.id m reg) (mapSet m.id m reg).length).1.length ≤ 10
  rw [evictScan_eq]
  simp
  omega

theorem mapGet_mapSet_self (k : String) (v : TypeHierarchyModel) (l : Registry) :
    mapGet k (mapSet k v l) = some v := by
  induction l with
  | nil => simp [mapSet, mapGet]
  | cons e rest ih =>
    by_cases he : e.1 = k
    · simp [mapSet, mapGet, he]
    · simp [mapSet, mapGet, he, ih]

theorem mapSet_keys (k : String) (v : TypeHierarchyModel) (l : Registry) :
    (mapSet k v l).map Prod.fst
      = if k ∈ l.map Prod.fst then l.map Prod.fst else l.map Prod.fst ++ [k] := by
  induction l with
  | nil => simp [mapSet]
  | cons e rest ih =>
    by_cases he : e.1 = k
    · simp [mapSet, he]
    · by_cases hk : k ∈ rest.map Prod.fst
      · simp [mapSet, he, ih, hk]
      · simp [mapSet, he, ih, hk, Ne.symm he]

theorem mapSet_length (k : String) (v : TypeHierarchyModel) (l : Registry) :
    (mapSet k v l).length
      = if k ∈ l.map Prod.fst then l.length else l.length + 1 := by
  induction l with
  | nil => simp [mapSet]
  | cons e rest ih =>
    by_cases he : e.1 = k
    · simp [mapSet, he]
    · by_cases hk : k ∈ rest.map Prod.fst
      · simp [mapSet, he, ih, hk]
      · simp [mapSet, he, ih, hk, Ne.symm he]

theorem mapSet_fresh (k : String) (v : TypeHierarchyModel) (l : Registry)
    (hk : k ∉ l.map Prod.fst) : mapSet k v l = l ++ [(k, v)] := by
  induction l with
  | nil => rfl
  | cons e rest ih =>
    rw [List.map_cons, List.mem_cons] at hk
    push_neg at hk
    simp [mapSet, Ne.symm hk.1, ih hk.2]

theorem mapGet_append_fresh (k : String) (v : TypeHierarchyModel) (l : Registry)
    (hk : k ∉ l.map Prod.fst) : mapGet k (l ++ [(k, v)]) = some v := by
  induction l with
  | nil => simp [mapGet]
  | cons e rest ih =>
    rw [List.map_cons, List.mem_cons] at hk
    push_neg at hk
    simp [mapGet, Ne.symm hk.1, ih hk.2]

theorem mapGet_eq_none (k : String) (l : Registry) (hk : k ∉ l.map Prod.fst) :
    mapGet k l = none := by
  induction l with
  | nil => rfl
  | cons e rest ih =>
    rw [List.map_cons, List.mem_cons] at hk
    push_neg at hk
    simp [mapGet, Ne.symm hk.1, ih hk.2]

theorem mapSet_keys_nodup (k : String) (v : TypeHierarchyModel) (l : Registry)
    (h : (l.map Prod.fst).Nodup) : ((mapSet k v l).map Prod.fst).Nodup := by
  rw [mapSet_keys]
  by_cases hk : k ∈ l.map Prod.fst
  · simpa [hk]
  · simp [hk, List.nodup_append, h]

/-! ### Claim theorems -/

/-- C1: for every model `m` built by `TypeHierarchyModel.create` and any number of
forks (one per item), disposing every fork and then the original makes the shared
reference count — which started at 1 and was incremented once per fork's `acquire` —
reach zero exactly once: after the forks alone are disposed the counter is still 1 and
the underlying session's `dispose()` has never run; after the original is also disposed
the counter is 0 and `dispose()` has run exactly once in total. -/
theorem fork_dispose_session_disposed_once (providers : List TypeHierarchyProvider)
    (token : CancellationToken) (hs : HandleStore) (m : TypeHierarchyModel)
    (hsOut : HandleStore)
    (hcreate : TypeHierarchyModel.create providers token hs = (.ok (some m), hsOut))
    (items : List TypeHierarchyItem) :
    rcAt m.handle (disposeMany (forkMany m items hsOut).1 (forkMany m items hsOut).2)
      = some { counter := 1, disposeCalls := 0 }
    ∧ rcAt m.handle
        (m.dispose (disposeMany (forkMany m items hsOut).1 (forkMany m items hsOut).2))
      = some { counter := 0, disposeCalls := 1 } := by
  obtain ⟨hh, hout⟩ := create_some_eq providers token hs m hsOut hcreate
  have h0 : rcAt m.handle hsOut = some { counter := 1, disposeCalls := 0 } := by
    rw [hout, hh]
    exact rcAt_append_own_length hs _
  have h1 := rcAt_forkMany m items hsOut _ h0
  have h2 := rcAt_disposeMany (forkMany m items hsOut).1 m.handle
    (forkMany m items hsOut).2 _ (forkMany_handle m items hsOut) h1
    (by rw [forkMany_length]; simp)
  have e1 : rcAt m.handle
      (disposeMany (forkMany m items hsOut).1 (forkMany m items hsOut).2)
      = some { counter := 1, disposeCalls := 0 } := by
    rw [h2]
    simp [forkMany_length]
  refine ⟨e1, ?_⟩
  show rcAt m.handle (applyH RefCountedDisposable.release m.handle _) = _
  rw [rcAt_applyH_self, e1]
  simp [RefCountedDisposable.release]

/-- C2: one registry insertion (`_models.set(model.id, model)` followed by the eviction
scan): afterwards the registry holds at most 10 entries; the evicted models are exactly
the oldest entries — the prefix of the insertion-ordered map beyond the capacity — in
order; with distinct keys no entry is evicted twice, and the handle store receives
exactly one `dispose()` (one `release`) per evicted model, in eviction order; a command
invocation that creates no model leaves the registry untouched, so along every sequence
of insertions the bound holds after each one. -/
theorem registry_put_bounded_evicts_oldest (m : TypeHierarchyModel) (reg : Registry)
    (hs : HandleStore) (hnd : (reg.map Prod.fst).Nodup) :
    (registryPut m reg hs).1.length ≤ 10
    ∧ (registryPut m reg hs).1
        = (mapSet m.id m reg).drop ((mapSet m.id m reg).length - 10)
    ∧ (registryPut m reg hs).2.2
        = ((mapSet m.id m reg).take ((mapSet m.id m reg).length - 10)).map Prod.snd
    ∧ (((mapSet m.id m reg).take ((mapSet m.id m reg).length - 10)).map Prod.fst).Nodup
    ∧ (registryPut m reg hs).2.1
        = (registryPut m reg hs).2.2.foldl (fun s f => f.dispose s) hs
    ∧ (∀ providers token st,
        (executePrepareTypeHierarchy providers token st).2.models = st.models
        ∨ (executePrepareTypeHierarchy providers token st).2.models.length ≤ 10) := by
  refine ⟨registryPut_length_le m reg hs, ?_, ?_, ?_, rfl, ?_⟩
  · show (evictScan (mapSet m.id m reg) (mapSet m.id m reg).length).1 = _
    rw [evictScan_eq]
  · show (evictScan (mapSet m.id m reg) (mapSet m.id m reg).length).2 = _
    rw [evictScan_eq]
  · rw [List.map_take]
    exact (mapSet_keys_nodup m.id m reg hnd).sublist (List.take_sublist _ _)
  · intro providers token st
    rcases hc : TypeHierarchyModel.create providers token st.handles with ⟨res, hs2⟩
    cases res with
    | error e =>
      left
      simp [executePrepareTypeHierarchy, hc]
    | ok o =>
      cases o with
      | none =>
        left
        simp [executePrepareTypeHierarchy, hc]
      | some m2 =>
        right
        simp only [executePrepareTypeHierarchy, hc]
        exact registryPut_length_le m2 st.models hs2

/-- Witness for C2 at a concrete input: inserting `modelCreatedA` into the empty
registry. -/
theorem registry_put_bounded_evicts_oldest_witness :
    (([] : Registry).map Prod.fst).Nodup
    ∧ ((registryPut modelCreatedA [] []).1.length ≤ 10
      ∧ (registryPut modelCreatedA [] []).1
          = (mapSet modelCreatedA.id modelCreatedA []).drop
              ((mapSet modelCreatedA.id modelCreatedA []).length - 10)
      ∧ (registryPut modelCreatedA [] []).2.2
          = ((mapSet modelCreatedA.id modelCreatedA []).take
              ((mapSet modelCreatedA.id modelCreatedA []).length - 10)).map Prod.snd
      ∧ (((mapSet modelCreatedA.id modelCreatedA []).take
            ((mapSet modelCreatedA.id modelCreatedA []).length - 10)).map Prod.fst).Nodup
      ∧ (registryPut modelCreatedA [] []).2.1
          = (registryPut modelCreatedA [] []).2.2.foldl (fun s f => f.dispose s) []
      ∧ ∀ providers token st,
          (executePrepareTypeHierarchy providers token st).2.models = st.models
          ∨ (executePrepareTypeHierarchy providers token st).2.models.length ≤ 10) :=
  ⟨by simp, registry_put_bounded_evicts_oldest modelCreatedA [] [] (by simp)⟩

/-- With at most 10 live entries and distinct keys before the insertion, the inserted
model survives the eviction scan and is found under its id afterwards. -/
theorem mapGet_registryPut_self (m : TypeHierarchyModel) (reg : Registry)
    (hs : HandleStore) (hlen : reg.length ≤ 10) :
    mapGet m.id (registryPut m reg hs).1 = some m := by
  show mapGet m.id (evictScan (mapSet m.id m reg) (mapSet m.id m reg).length).1 = some m
  rw [evictScan_eq]
  by_cases hk : m.id ∈ reg.map Prod.fst
  · have hl : (mapSet m.id m reg).length = reg.length := by
      rw [mapSet_length]
      simp [hk]
    have hz : (mapSet m.id m reg).length - 10 = 0 := by omega
    rw [hz, List.drop_zero]
    exact mapGet_mapSet_self m.id m reg
  · have hl : (mapSet m.id m reg).length = reg.length + 1 := by
      rw [mapSet_length]
      simp [hk]
    have hdle : (mapSet m.id m reg).length - 10 ≤ reg.length := by omega
    rw [mapSet_fresh m.id m reg hk] at hdle ⊢
    rw [List.drop_append_of_le_length hdle]
    apply mapGet_append_fresh
    intro hmem
    apply hk
    rw [List.map_drop] at hmem
    exact List.drop_subset _ _ hmem

/-- Witness for C1 at a concrete input: `providerA` creates a model over the empty
store and one fork is taken and disposed before the original. -/
theorem fork_dispose_session_disposed_once_witness :
    TypeHierarchyModel.create [providerA] false []
      = (.ok (some modelCreatedA), [{ counter := 1, disposeCalls := 0 }])
    ∧ (rcAt modelCreatedA.handle
          (disposeMany
            (forkMany modelCreatedA [itemB] [{ counter := 1, disposeCalls := 0 }]).1
            (forkMany modelCreatedA [itemB] [{ counter := 1, disposeCalls := 0 }]).2)
        = some { counter := 1, disposeCalls := 0 }
      ∧ rcAt modelCreatedA.handle
          (modelCreatedA.dispose
            (disposeMany
              (forkMany modelCreatedA [itemB] [{ counter := 1, disposeCalls := 0 }]).1
              (forkMany modelCreatedA [itemB] [{ counter := 1, disposeCalls := 0 }]).2))
        = some { counter := 0, disposeCalls := 1 }) :=
  ⟨rfl, fork_dispose_session_disposed_once [providerA] false [] modelCreatedA
    [{ counter := 1, disposeCalls := 0 }] rfl [itemB]⟩

/-- Shared helper: the exact model a successful `create` builds. -/
theorem create_some_model_eq (providers : List TypeHierarchyProvider)
    (p : TypeHierarchyProvider) (token : CancellationToken) (hs : HandleStore)
    (s : TypeHierarchySession) (m : TypeHierarchyModel) (hsOut : HandleStore)
    (hp : providers.head? = some p)
    (hprep : p.prepareTypeHierarchy token = .value (some s))
    (hc : TypeHierarchyModel.create providers token hs = (.ok (some m), hsOut)) :
    m = { id := s.roots.foldl (fun a c => a ++ c.sessionId) ""
        , provider := p, roots := s.roots, handle := hs.length } := by
  cases providers with
  | nil => simp at hp
  | cons q rest =>
    have hq : q = p := by simpa using hp
    subst hq
    simp [TypeHierarchyModel.create, hprep] at hc
    exact hc.1.symm

/-- C3: `provideSupertypes` and `provideSubtypes` never propagate a provider failure
to the caller: a throw is reported to the unexpected-error sink (the second component)
and swallowed with result `[]`; an `undefined`, non-array or empty-array result yields
`[]` with nothing reported; a non-empty array result is returned as is. The Lean
return type — a plain pair with no error channel — mirrors the source's catch-all
`try`/`catch` making the operation total. -/
theorem provide_expansion_never_propagates (m : TypeHierarchyModel)
    (item : TypeHierarchyItem) (token : CancellationToken) :
    (∀ e, m.provider.provideSupertypes item token = .threw e →
      m.provideSupertypes item token = ([], [e]))
    ∧ (m.provider.provideSupertypes item token = .value .undef →
      m.provideSupertypes item token = ([], []))
    ∧ (m.provider.provideSupertypes item token = .value .nonArray →
      m.provideSupertypes item token = ([], []))
    ∧ (m.provider.provideSupertypes item token = .value (.arr []) →
      m.provideSupertypes item token = ([], []))
    ∧ (∀ x l, m.provider.provideSupertypes item token = .value (.arr (x :: l)) →
      m.provideSupertypes item token = (x :: l, []))
    ∧ (∀ e, m.provider.provideSubtypes item token = .threw e →
      m.provideSubtypes item token = ([], [e]))
    ∧ (m.provider.provideSubtypes item token = .value .undef →
      m.provideSubtypes item token = ([], []))
    ∧ (m.provider.provideSubtypes item token = .value .nonArray →
      m.provideSubtypes item token = ([], []))
    ∧ (m.provider.provideSubtypes item token = .value (.arr []) →
      m.provideSubtypes item token = ([], []))
    ∧ (∀ x l, m.provider.provideSubtypes item token = .value (.arr (x :: l)) →
      m.provideSubtypes item token = (x :: l, [])) := by
  refine ⟨?_, ?_, ?_, ?_, ?_, ?_, ?_, ?_, ?_, ?_⟩
  all_goals intros
  all_goals simp_all [TypeHierarchyModel.provideSupertypes,
    TypeHierarchyModel.provideSubtypes, isNonEmptyArray, JsArrayResult.asList]

/-- Witness for C3: the throwing provider's error is reported and swallowed. -/
theorem provide_expansion_never_propagates_witness :
    modelThrowing.provider.provideSupertypes itemA false = .threw 7
    ∧ modelThrowing.provideSupertypes itemA false = ([], [7]) :=
  ⟨rfl, (provide_expansion_never_propagates modelThrowing itemA false).1 7 rfl⟩

/-- C4: once the cancellation signal has fired before the provider responds — by the
provider-side cancellation contract, `prepareTypeHierarchy` then resolves without a
session — `create` resolves to absent and allocates no handle (the store comes back
unchanged: no provider session is left acquired), and the façade registers nothing,
returning the empty result with the whole state unchanged. -/
theorem cancelled_prepare_registers_nothing (providers : List TypeHierarchyProvider)
    (p : TypeHierarchyProvider) (st : SystemState)
    (hp : providers.head? = some p)
    (hcancel : p.prepareTypeHierarchy true = .value none) :
    TypeHierarchyModel.create providers true st.handles = (.ok none, st.handles)
    ∧ executePrepareTypeHierarchy providers true st = (.ok [], st) := by
  cases providers with
  | nil => simp at hp
  | cons q rest =>
    have hq : q = p := by simpa using hp
    subst hq
    have hc : TypeHierarchyModel.create (q :: rest) true st.handles
        = (.ok none, st.handles) := by
      simp [TypeHierarchyModel.create, hcancel]
    refine ⟨hc, ?_⟩
    simp [executePrepareTypeHierarchy, hc]

/-- Witness for C4 with a provider that honors cancellation. -/
theorem cancelled_prepare_registers_nothing_witness :
    [providerHonoring].head? = some providerHonoring
    ∧ providerHonoring.prepareTypeHierarchy true = .value none
    ∧ (TypeHierarchyModel.create [providerHonoring] true st0.handles
        = (.ok none, st0.handles)
      ∧ executePrepareTypeHierarchy [providerHonoring] true st0 = (.ok [], st0)) :=
  ⟨rfl, rfl,
    cancelled_prepare_registers_nothing [providerHonoring] providerHonoring st0 rfl rfl⟩

/-- C5 fails as stated: the id concatenates the roots' `_sessionId` fields, not their
`_itemId` fields. For a root with `_sessionId = "s"` and `_itemId = "a"` the created
model's id is `"s"`, while the spec-worded concatenation of item ids is `"a"`. -/
theorem model_id_not_item_id_concat :
    (TypeHierarchyModel.create [providerA] false []).1
      = .ok (some { id := "s", provider := providerA, roots := [itemA], handle := 0 })
    ∧ specRootsItemIdConcat sessionA.roots = "a"
    ∧ ("s" : String) ≠ "a" :=
  ⟨rfl, rfl, by decide⟩

/-- C5 (amended): the model's id equals the concatenation, in root order, of every
root node's `_sessionId` field. -/
theorem model_id_is_session_id_concat (providers : List TypeHierarchyProvider)
    (p : TypeHierarchyProvider) (token : CancellationToken) (hs : HandleStore)
    (s : TypeHierarchySession) (m : TypeHierarchyModel) (hsOut : HandleStore)
    (hp : providers.head? = some p)
    (hprep : p.prepareTypeHierarchy token = .value (some s))
    (hc : TypeHierarchyModel.create providers token hs = (.ok (some m), hsOut)) :
    m.id = s.roots.foldl (fun a c => a ++ c.sessionId) "" := by
  rw [create_some_model_eq providers p token hs s m hsOut hp hprep hc]

/-- Witness for the amended C5. -/
theorem model_id_is_session_id_concat_witness :
    [providerA].head? = some providerA
    ∧ providerA.prepareTypeHierarchy false = .value (some sessionA)
    ∧ TypeHierarchyModel.create [providerA] false []
        = (.ok (some modelCreatedA), [{ counter := 1, disposeCalls := 0 }])
    ∧ modelCreatedA.id = sessionA.roots.foldl (fun a c => a ++ c.sessionId) "" :=
  ⟨rfl, rfl, rfl,
    model_id_is_session_id_concat [providerA] providerA false [] sessionA modelCreatedA
      [{ counter := 1, disposeCalls := 0 }] rfl rfl rfl⟩

/-- C6: `create` returns absent exactly when there is no matching provider or the
first ordered provider's prepare yields no session; otherwise — when prepare resolves
to a session — it returns a model holding all roots the provider returned, wrapped
around a fresh ref-counted handle with count 1 appended to the store. -/
theorem create_absent_iff (providers : List TypeHierarchyProvider)
    (token : CancellationToken) (hs : HandleStore) :
    ((TypeHierarchyModel.create providers token hs).1 = .ok none ↔
      providers.head? = none
      ∨ ∃ p, providers.head? = some p ∧ p.prepareTypeHierarchy token = .value none)
    ∧ ∀ p s, providers.head? = some p →
        p.prepareTypeHierarchy token = .value (some s) →
        TypeHierarchyModel.create providers token hs
          = (.ok (some { id := s.roots.foldl (fun a c => a ++ c.sessionId) ""
                       , provider := p, roots := s.roots, handle := hs.length }),
             hs ++ [{ counter := 1, disposeCalls := 0 }]) := by
  constructor
  · cases providers with
    | nil => simp [TypeHierarchyModel.create]
    | cons q rest =>
      cases hq : q.prepareTypeHierarchy token with
      | threw e => simp [TypeHierarchyModel.create, hq]
      | value v =>
        cases v with
        | none => simp [TypeHierarchyModel.create, hq]
        | some s => simp [TypeHierarchyModel.create, hq]
  · intro p s hp hprep
    cases providers with
    | nil => simp at hp
    | cons q rest =>
      have hq : q = p := by simpa using hp
      subst hq
      simp [TypeHierarchyModel.create, hprep]

/-- Witness for C6's success case at a concrete input. -/
theorem create_absent_iff_witness :
    [providerA].head? = some providerA
    ∧ providerA.prepareTypeHierarchy false = .value (some sessionA)
    ∧ TypeHierarchyModel.create [providerA] false []
        = (.ok (some { id := sessionA.roots.foldl (fun a c => a ++ c.sessionId) ""
                     , provider := providerA, roots := sessionA.roots, handle := 0 }),
           [{ counter := 1, disposeCalls := 0 }]) :=
  ⟨rfl, rfl, (create_absent_iff [providerA] false []).2 providerA sessionA rfl rfl⟩

/-- C7 fails as stated: with a provider whose session has two roots the command
returns only the first root, not all roots the provider returned. -/
theorem execute_prepare_returns_only_first_root :
    (executePrepareTypeHierarchy [providerAB] false st0).1 = .ok [some itemA]
    ∧ sessionAB.roots.map some = [some itemA, some itemB]
    ∧ ([some itemA] : List (Option TypeHierarchyItem)) ≠ [some itemA, some itemB] :=
  ⟨rfl, rfl, by decide⟩

/-- C7 (amended): on a successful prepare the command registers the created model in
the session registry and returns a singleton holding the model's first root
(`[model.root]`, `root = roots[0]`) — not all roots; when `create` yields absent it
returns the empty sequence. Registration survives the eviction scan when the registry
held at most 10 entries before the call. -/
theorem execute_prepare_registers_and_returns_first_root
    (providers : List TypeHierarchyProvider) (p : TypeHierarchyProvider)
    (token : CancellationToken) (st : SystemState) (s : TypeHierarchySession)
    (hp : providers.head? = some p)
    (hprep : p.prepareTypeHierarchy token = .value (some s))
    (hlen : st.models.length ≤ 10) :
    (∃ m : TypeHierarchyModel,
      (TypeHierarchyModel.create providers token st.handles).1 = .ok (some m)
      ∧ m.roots = s.roots
      ∧ (executePrepareTypeHierarchy providers token st).1 = .ok [s.roots.head?]
      ∧ mapGet m.id (executePrepareTypeHierarchy providers token st).2.models = some m)
    ∧ ∀ st2 : SystemState,
        (TypeHierarchyModel.create providers token st2.handles).1 = .ok none →
        (executePrepareTypeHierarchy providers token st2).1 = .ok [] := by
  constructor
  · cases providers with
    | nil => simp at hp
    | cons q rest =>
      have hq : q = p := by simpa using hp
      subst hq
      have hc : TypeHierarchyModel.create (q :: rest) token st.handles
          = (.ok (some { id := s.roots.foldl (fun a c => a ++ c.sessionId) ""
                       , provider := q, roots := s.roots
                       , handle := st.handles.length }),
             st.handles ++ [{ counter := 1, disposeCalls := 0 }]) := by
        simp [TypeHierarchyModel.create, hprep]
      refine ⟨{ id := s.roots.foldl (fun a c => a ++ c.sessionId) ""
              , provider := q, roots := s.roots
              , handle := st.handles.length }, ?_, rfl, ?_, ?_⟩
      · rw [hc]
      · simp only [executePrepareTypeHierarchy, hc]
        rfl
      · simp only [executePrepareTypeHierarchy, hc]
        exact mapGet_registryPut_self
          { id := s.roots.foldl (fun a c => a ++ c.sessionId) ""
          , provider := q, roots := s.roots, handle := st.handles.length }
          st.models (st.handles ++ [{ counter := 1, disposeCalls := 0 }]) hlen
  · intro st2 hnone
    rcases hc2 : TypeHierarchyModel.create providers token st2.handles with ⟨res, hs2⟩
    rw [hc2] at hnone
    simp at hnone
    subst hnone
    simp [executePrepareTypeHierarchy, hc2]

/-- Witness for the amended C7 at a concrete input. -/
theorem execute_prepare_registers_and_returns_first_root_witness :
    [providerAB].head? = some providerAB
    ∧ providerAB.prepareTypeHierarchy false = .value (some sessionAB)
    ∧ st0.models.length ≤ 10
    ∧ ((∃ m : TypeHierarchyModel,
        (TypeHierarchyModel.create [providerAB] false st0.handles).1 = .ok (some m)
        ∧ m.roots = sessionAB.roots
        ∧ (executePrepareTypeHierarchy [providerAB] false st0).1
            = .ok [sessionAB.roots.head?]
        ∧ mapGet m.id (executePrepareTypeHierarchy [providerAB] false st0).2.models
            = some m)
      ∧ ∀ st2 : SystemState,
          (TypeHierarchyModel.create [providerAB] false st2.handles).1 = .ok none →
          (executePrepareTypeHierarchy [providerAB] false st2).1 = .ok []) :=
  ⟨rfl, rfl, by decide,
    execute_prepare_registers_and_returns_first_root [providerAB] providerAB false st0
      sessionAB rfl rfl (by decide)⟩

/-- C8: for a well-shaped node whose `_sessionId` is not a key of the session
registry, both expand commands return `undefined` (not an error) and invoke no
provider expansion call. -/
theorem unknown_session_returns_undefined (reg : Registry)
    (d : TypeHierarchyItemDto) (token : CancellationToken)
    (hvalid : isTypeHierarchyItemDto d = true)
    (hmiss : ∀ sid, d.sessionId = some sid → sid ∉ reg.map Prod.fst) :
    executeProvideSupertypes reg d token = (.result none, 0)
    ∧ executeProvideSubtypes reg d token = (.result none, 0) := by
  have hlook : lookupDto d.sessionId reg = none := by
    cases hsid : d.sessionId with
    | none => rfl
    | some sid => exact mapGet_eq_none sid reg (hmiss sid hsid)
  constructor <;>
    simp [executeProvideSupertypes, executeProvideSubtypes, hvalid, hlook]

/-- Witness for C8 with a registered model and a dto naming an unknown session. -/
theorem unknown_session_returns_undefined_witness :
    isTypeHierarchyItemDto dtoUnknown = true
    ∧ (∀ sid, dtoUnknown.sessionId = some sid →
        sid ∉ ([("s", modelCreatedA)] : Registry).map Prod.fst)
    ∧ (executeProvideSupertypes [("s", modelCreatedA)] dtoUnknown false
        = (.result none, 0)
      ∧ executeProvideSubtypes [("s", modelCreatedA)] dtoUnknown false
        = (.result none, 0)) := by
  have hm : ∀ sid, dtoUnknown.sessionId = some sid →
      sid ∉ ([("s", modelCreatedA)] : Registry).map Prod.fst := by
    intro sid hsid
    simp [dtoUnknown, dtoNoSession] at hsid
    subst hsid
    decide
  exact ⟨rfl, hm,
    unknown_session_returns_undefined [("s", modelCreatedA)] dtoUnknown false rfl hm⟩

/-- C9: the node-shape validator does not check `_sessionId` or `_itemId`: a dto with
string `name`, numeric `kind`, valid `uri` and well-formed ranges but absent
`_sessionId` validates; the verdict is independent of the two identity fields; and the
expand commands proceed to the registry lookup, which misses on the absent key and
returns `undefined` — no validation error, no provider call. -/
theorem validator_ignores_session_id (d : TypeHierarchyItemDto)
    (hname : isStringVal d.name = true) (hkind : isNumberVal d.kind = true)
    (huri : isUriVal d.uri = true) (hrange : isIRangeVal d.range = true)
    (hsel : isIRangeVal d.selectionRange = true) (hsid : d.sessionId = none) :
    isTypeHierarchyItemDto d = true
    ∧ (∀ sid iid, isTypeHierarchyItemDto { d with sessionId := sid, itemId := iid }
        = isTypeHierarchyItemDto d)
    ∧ ∀ reg token, executeProvideSupertypes reg d token = (.result none, 0)
        ∧ executeProvideSubtypes reg d token = (.result none, 0) := by
  have hv : isTypeHierarchyItemDto d = true := by
    simp [isTypeHierarchyItemDto, hname, hkind, huri, hrange, hsel]
  refine ⟨hv, fun sid iid => rfl, ?_⟩
  intro reg token
  have hlook : lookupDto d.sessionId reg = none := by
    rw [hsid]
    rfl
  constructor <;>
    simp [executeProvideSupertypes, executeProvideSubtypes, hv, hlook]

/-- Witness for C9 with a concrete well-shaped dto lacking `_sessionId`. -/
theorem validator_ignores_session_id_witness :
    isStringVal dtoNoSession.name = true
    ∧ isNumberVal dtoNoSession.kind = true
    ∧ isUriVal dtoNoSession.uri = true
    ∧ isIRangeVal dtoNoSession.range = true
    ∧ isIRangeVal dtoNoSession.selectionRange = true
    ∧ dtoNoSession.sessionId = none
    ∧ (isTypeHierarchyItemDto dtoNoSession = true
      ∧ (∀ sid iid,
          isTypeHierarchyItemDto { dtoNoSession with sessionId := sid, itemId := iid }
            = isTypeHierarchyItemDto dtoNoSession)
      ∧ ∀ reg token,
          executeProvideSupertypes reg dtoNoSession token = (.result none, 0)
          ∧ executeProvideSubtypes reg dtoNoSession token = (.result none, 0)) :=
  ⟨rfl, rfl, rfl, rfl, rfl, rfl,
    validator_ignores_session_id dtoNoSession rfl rfl rfl rfl rfl rfl⟩

/-- C10: inserting a model under an id already mapped to an earlier model silently
replaces the earlier model: the map then yields the new model under that id, the
eviction scan never disposes the displaced model, and — under the façade invariant
that no entry left in the map after the `set` holds the displaced model's handle —
the reference count of the displaced model's session handle is unchanged by the whole
insertion, so the registry never releases the displaced provider session. -/
theorem put_duplicate_id_silently_replaces (reg : Registry) (hs : HandleStore)
    (m1 m2 : TypeHierarchyModel) (hget : mapGet m2.id reg = some m1)
    (hfresh : ∀ e ∈ mapSet m2.id m2 reg, e.2.handle ≠ m1.handle) :
    (mapGet m2.id reg = some m1
      ∧ mapGet m2.id (mapSet m2.id m2 reg) = some m2)
    ∧ m1 ∉ (registryPut m2 reg hs).2.2
    ∧ rcAt m1.handle (registryPut m2 reg hs).2.1 = rcAt m1.handle hs := by
  have hdisposed : ∀ f ∈ (registryPut m2 reg hs).2.2, f.handle ≠ m1.handle := by
    intro f hf
    have he : (registryPut m2 reg hs).2.2
        = ((mapSet m2.id m2 reg).take
            ((mapSet m2.id m2 reg).length - 10)).map Prod.snd := by
      show (evictScan (mapSet m2.id m2 reg) (mapSet m2.id m2 reg).length).2 = _
      rw [evictScan_eq]
    rw [he] at hf
    obtain ⟨e, hmem, hef⟩ := List.mem_map.1 hf
    have hin : e ∈ mapSet m2.id m2 reg := List.take_subset _ _ hmem
    rw [← hef]
    exact hfresh e hin
  refine ⟨⟨hget, mapGet_mapSet_self m2.id m2 reg⟩, ?_, ?_⟩
  · intro hmem
    exact hdisposed m1 hmem rfl
  · exact rcAt_foldl_dispose_ne (registryPut m2 reg hs).2.2 m1.handle hs hdisposed

/-- Witness for C10: `modelB` (holding handle 1) displaces `modelCreatedA` (holding
handle 0) under the shared id. -/
theorem put_duplicate_id_silently_replaces_witness :
    mapGet modelB.id [("s", modelCreatedA)] = some modelCreatedA
    ∧ (∀ e ∈ mapSet modelB.id modelB [("s", modelCreatedA)],
        e.2.handle ≠ modelCreatedA.handle)
    ∧ ((mapGet modelB.id [("s", modelCreatedA)] = some modelCreatedA
        ∧ mapGet modelB.id (mapSet modelB.id modelB [("s", modelCreatedA)])
            = some modelB)
      ∧ modelCreatedA ∉ (registryPut modelB [("s", modelCreatedA)]
          [{ counter := 1, disposeCalls := 0 }, { counter := 1, disposeCalls := 0 }]).2.2
      ∧ rcAt modelCreatedA.handle (registryPut modelB [("s", modelCreatedA)]
          [{ counter := 1, disposeCalls := 0 }, { counter := 1, disposeCalls := 0 }]).2.1
        = rcAt modelCreatedA.handle
            [{ counter := 1, disposeCalls := 0 }, { counter := 1, disposeCalls := 0 }]) := by
  have hf : ∀ e ∈ mapSet modelB.id modelB [("s", modelCreatedA)],
      e.2.handle ≠ modelCreatedA.handle := by
    intro e he
    simp [mapSet, modelB] at he
    subst he
    decide
  exact ⟨rfl, hf,
    put_duplicate_id_silently_replaces [("s", modelCreatedA)]
      [{ counter := 1, disposeCalls := 0 }, { counter := 1, disposeCalls := 0 }]
      modelCreatedA modelB rfl hf⟩

end TypeHierarchy
